import Mathlib

/-!
Verification of the newa CLI pipeline (src/newa/cli.py): the Jira
issue-reconciliation loop (`cmd_jira`), the execution worker (`worker`) and
the result reporter (`cmd_report`), shallowly embedded as executable Lean
definitions.  External services (Jira tracker, Errata Tool, Testing Farm,
ReportPortal) are modelled as parameters, following the interface contracts
of the design document; everything that `cli.py` itself computes is
translated directly from the source.
-/

namespace Newa

/-! ## String machinery

Python's `in` (substring test) and `str.replace` are modelled on `List Char`.
-/

/-- Decides whether `t` is a prefix of `s` (character lists). -/
def isPrefL : List Char → List Char → Bool
  | [], _ => true
  | _ :: _, [] => false
  | a :: asl, b :: bs => a == b && isPrefL asl bs

/-- Decides whether `t` occurs as a contiguous substring of `s`
(the semantics of Python's `t in s`). -/
def hasSubL (t : List Char) : List Char → Bool
  | [] => isPrefL t []
  | c :: cs => isPrefL t (c :: cs) || hasSubL t cs

/-- Python's `t in s` for strings. -/
def occursIn (t s : String) : Bool := hasSubL t.data s.data

/-- Fuel-indexed core of Python's `str.replace`: scan left to right, replace
each non-overlapping occurrence of `t0 :: ts` by `rep`.  The fuel is set to
the length of the scanned list, which is always sufficient. -/
def replGoF (t0 : Char) (ts rep : List Char) : Nat → List Char → List Char
  | 0, _ => []
  | _, [] => []
  | fuel + 1, c :: cs =>
    if isPrefL (t0 :: ts) (c :: cs) then rep ++ replGoF t0 ts rep fuel (cs.drop ts.length)
    else c :: replGoF t0 ts rep fuel cs

/-- Python's `s.replace(t, rep)` on character lists, including the semantics
for the empty pattern (`rep` inserted before every character and at the end). -/
def pyReplaceL (t rep s : List Char) : List Char :=
  match t with
  | [] => rep ++ s.flatMap (fun c => c :: rep)
  | t0 :: ts => replGoF t0 ts rep s.length s

/-- Python's `s.replace(t, rep)` for strings. -/
def pyReplaceStr (s t rep : String) : String := String.mk (pyReplaceL t.data rep.data s.data)

theorem isPrefL_nil_false (t0 : Char) (ts : List Char) : isPrefL (t0 :: ts) [] = false := rfl

theorem hasSubL_nil (t0 : Char) (ts : List Char) : hasSubL (t0 :: ts) [] = false := rfl

/-- Scanning past a character that cannot start the pattern changes nothing. -/
theorem hasSubL_cons_of_ne (t0 : Char) (ts : List Char) (c : Char) (w : List Char)
    (h : t0 ≠ c) : hasSubL (t0 :: ts) (c :: w) = hasSubL (t0 :: ts) w := by
  simp [hasSubL, isPrefL, h]

/-- A pattern whose first character is not `'*'` cannot occur across a block of
`'*'` characters: the block can be skipped. -/
theorem hasSubL_append_stars (t0 : Char) (ts rep w : List Char)
    (hstar : ∀ c ∈ rep, c = '*') (h0 : t0 ≠ '*') :
    hasSubL (t0 :: ts) (rep ++ w) = hasSubL (t0 :: ts) w := by
  induction rep with
  | nil => simp
  | cons c cs ih =>
    have hc : c = '*' := hstar c (by simp)
    have hcs : ∀ x ∈ cs, x = '*' := fun x hx => hstar x (by simp [hx])
    rw [List.cons_append, hasSubL_cons_of_ne t0 ts c (cs ++ w) (by rw [hc]; exact h0)]
    exact ih hcs

/-- Prefix reflection: a nonempty star-free prefix of the replaced output is
already a prefix of the input (the replacement blocks are all-star). -/
theorem isPrefL_replGoF (t0 : Char) (ts rep : List Char)
    (hrep : rep ≠ []) (hstar : ∀ c ∈ rep, c = '*') :
    ∀ (s w : List Char) (fuel : Nat), w ≠ [] → (∀ c ∈ w, c ≠ '*') →
      isPrefL w (replGoF t0 ts rep fuel s) = true → isPrefL w s = true := by
  intro s
  induction s with
  | nil =>
    intro w fuel hw _ hpref
    cases fuel with
    | zero =>
      cases w with
      | nil => exact absurd rfl hw
      | cons w0 ws => simp [replGoF, isPrefL] at hpref
    | succ f =>
      cases w with
      | nil => exact absurd rfl hw
      | cons w0 ws => simp [replGoF, isPrefL] at hpref
  | cons c cs ih =>
    intro w fuel hw hwstar hpref
    cases fuel with
    | zero =>
      cases w with
      | nil => exact absurd rfl hw
      | cons w0 ws => simp [replGoF, isPrefL] at hpref
    | succ f =>
      rw [replGoF] at hpref
      by_cases hmatch : isPrefL (t0 :: ts) (c :: cs) = true
      · rw [if_pos hmatch] at hpref
        cases w with
        | nil => exact absurd rfl hw
        | cons w0 ws =>
          cases rep with
          | nil => exact absurd rfl hrep
          | cons r0 rs =>
            have hr0 : r0 = '*' := hstar r0 (by simp)
            have hw0 : w0 ≠ '*' := hwstar w0 (by simp)
            rw [List.cons_append] at hpref
            simp only [isPrefL, Bool.and_eq_true, beq_iff_eq] at hpref
            exact absurd (hpref.1.trans hr0) hw0
      · rw [if_neg hmatch] at hpref
        cases w with
        | nil => exact absurd rfl hw
        | cons w0 ws =>
          simp only [isPrefL, Bool.and_eq_true, beq_iff_eq] at hpref ⊢
          refine ⟨hpref.1, ?_⟩
          cases hws : ws with
          | nil => simp [isPrefL]
          | cons x xs =>
            have hwsne : ws ≠ [] := by simp [hws]
            have hwsstar : ∀ c2 ∈ ws, c2 ≠ '*' := fun c2 hc2 =>
              hwstar c2 (by simp [hc2])
            rw [← hws]
            exact ih ws f hwsne hwsstar (hws ▸ hpref.2)

/-- Greedy left-to-right replacement of a nonempty star-free pattern by an
all-star block leaves no occurrence of the pattern in its output. -/
theorem hasSubL_replGoF_false (t0 : Char) (ts rep : List Char)
    (h0 : t0 ≠ '*') (hts : ∀ c ∈ ts, c ≠ '*')
    (hrep : rep ≠ []) (hstar : ∀ c ∈ rep, c = '*') :
    ∀ (fuel : Nat) (s : List Char), s.length ≤ fuel →
      hasSubL (t0 :: ts) (replGoF t0 ts rep fuel s) = false := by
  intro fuel
  induction fuel with
  | zero =>
    intro s hs
    have : s = [] := List.length_eq_zero.mp (Nat.le_zero.mp hs)
    subst this
    simp [replGoF, hasSubL_nil]
  | succ f ih =>
    intro s hs
    cases s with
    | nil => simp [replGoF, hasSubL_nil]
    | cons c cs =>
      rw [replGoF]
      by_cases hmatch : isPrefL (t0 :: ts) (c :: cs) = true
      · rw [if_pos hmatch, hasSubL_append_stars t0 ts rep _ hstar h0]
        apply ih
        have hd : (cs.drop ts.length).length ≤ cs.length := by
          rw [List.length_drop]; omega
        have : cs.length + 1 ≤ f + 1 := by simpa using hs
        omega
      · rw [if_neg hmatch]
        have hcs : cs.length ≤ f := by
          have : cs.length + 1 ≤ f + 1 := by simpa using hs
          omega
        have htail : hasSubL (t0 :: ts) (replGoF t0 ts rep f cs) = false := ih cs hcs
        have hwstar : ∀ x ∈ t0 :: ts, x ≠ '*' := by
          intro x hx
          rcases List.mem_cons.mp hx with h | h
          · rw [h]; exact h0
          · exact hts x h
        have hhead : isPrefL (t0 :: ts) (c :: replGoF t0 ts rep f cs) = false := by
          by_contra hcon
          have hcon' : isPrefL (t0 :: ts) (c :: replGoF t0 ts rep f cs) = true := by
            revert hcon
            cases isPrefL (t0 :: ts) (c :: replGoF t0 ts rep f cs) <;> simp
          have hstep : replGoF t0 ts rep (f + 1) (c :: cs) = c :: replGoF t0 ts rep f cs := by
            rw [replGoF, if_neg hmatch]
          have := isPrefL_replGoF t0 ts rep hrep hstar (c :: cs) (t0 :: ts) (f + 1)
            (by simp) hwstar (by rw [hstep]; exact hcon')
          exact hmatch this
        simp [hasSubL, hhead, htail]

/-- A nonempty ReportPortal token containing no `'*'` cannot occur in the
output of Python's `command.replace(token, '***')`. -/
theorem occursIn_pyReplace_false (cmd token : String)
    (h1 : token.data ≠ []) (h2 : '*' ∉ token.data) :
    occursIn token (pyReplaceStr cmd token ("***")) = false := by
  cases hd : token.data with
  | nil => exact absurd hd h1
  | cons t0 ts =>
    have h0 : t0 ≠ '*' := by
      intro hc
      exact h2 (hd ▸ (hc ▸ List.mem_cons_self t0 ts))
    have hts : ∀ c ∈ ts, c ≠ '*' := by
      intro c hc hcstar
      exact h2 (hd ▸ List.mem_cons_of_mem t0 (hcstar ▸ hc))
    have hstar : ∀ c ∈ ("***" : String).data, c = '*' := by decide
    unfold occursIn pyReplaceStr pyReplaceL
    rw [hd]
    exact hasSubL_replGoF_false t0 ts _ h0 hts (by decide) hstar cmd.data.length cmd.data
      (Nat.le_refl _)

/-! ## Association lists

Python dictionaries (`processed_actions`, `endless_loop_check`) are modelled
as association lists with last-writer-wins update. -/

/-- Dictionary lookup (`d.get(k)` / `k in d`). -/
def lookupA {α : Type} : List (String × α) → String → Option α
  | [], _ => none
  | (k2, v) :: rest, k => if k2 == k then some v else lookupA rest k

/-- Dictionary update (`d[k] = v`). -/
def setA {α : Type} : List (String × α) → String → α → List (String × α)
  | [], k, v => [(k, v)]
  | (k2, v2) :: rest, k, v =>
    if k2 == k then (k, v) :: rest else (k2, v2) :: setA rest k v

theorem lookupA_setA_self {α : Type} (m : List (String × α)) (k : String) (v : α) :
    lookupA (setA m k v) k = some v := by
  induction m with
  | nil => simp [setA, lookupA]
  | cons p rest ih =>
    obtain ⟨k2, v2⟩ := p
    by_cases h : k2 = k
    · subst h
      simp [setA, lookupA]
    · simp [setA, lookupA, h, ih]

theorem lookupA_setA_ne {α : Type} (m : List (String × α)) (k k2 : String) (v : α)
    (h : k2 ≠ k) : lookupA (setA m k v) k2 = lookupA m k2 := by
  induction m with
  | nil => simp [setA, lookupA, Ne.symm h]
  | cons p rest ih =>
    obtain ⟨k3, v3⟩ := p
    by_cases h3 : k3 = k
    · subst h3
      simp [setA, lookupA, Ne.symm h]
    · simp [setA, lookupA, h3, ih]

theorem mem_setA {α : Type} (m : List (String × α)) (k : String) (v : α) (p : String × α)
    (h : p ∈ setA m k v) : p = (k, v) ∨ p ∈ m := by
  induction m with
  | nil => simp [setA] at h; exact Or.inl h
  | cons q rest ih =>
    obtain ⟨k2, v2⟩ := q
    by_cases hk : k2 == k
    · simp only [setA, hk, if_true] at h
      rcases List.mem_cons.mp h with h | h
      · exact Or.inl h
      · exact Or.inr (List.mem_cons_of_mem _ h)
    · simp only [setA, hk, if_false, Bool.false_eq_true] at h
      rcases List.mem_cons.mp h with h | h
      · exact Or.inr (h ▸ List.mem_cons_self _ _)
      · rcases ih h with h | h
        · exact Or.inl h
        · exact Or.inr (List.mem_cons_of_mem _ h)

theorem lookupA_mem {α : Type} (m : List (String × α)) (k : String) (v : α)
    (h : lookupA m k = some v) : (k, v) ∈ m := by
  induction m with
  | nil => simp [lookupA] at h
  | cons p rest ih =>
    obtain ⟨k2, v2⟩ := p
    by_cases hk : k2 == k
    · have : k2 = k := by simpa using hk
      subst this
      simp only [lookupA, beq_self_eq_true, if_true, Option.some.injEq] at h
      subst h
      exact List.mem_cons_self _ _
    · simp only [lookupA, hk, if_false, Bool.false_eq_true] at h
      exact List.mem_cons_of_mem _ (ih h)

/-! ## Data model of the Jira reconciliation stage (`cmd_jira`)

`Issue`, `OnRespinAction` and the issue-action records come from the `newa`
package (`newa/__init__.py`), which is not part of the given sources; they are
modelled from the spec's data model section. -/

/-- Modelled from the spec: `OnRespinAction` — on_respin ∈ \x7bKEEP, CLOSE\x7d. -/
inductive OnRespinAction
  | keep
  | close
deriving DecidableEq

/-- Modelled from the spec: `Issue` — \x7bid, group (optional visibility scope),
closed (bool)\x7d. -/
structure Issue where
  id : String
  group : Option String := none
  closed : Bool := false
deriving DecidableEq

/-- Modelled from the spec: `IssueAction` — a node of the user-supplied action
graph: id, optional parent reference, conditional predicate, templates,
respin policy and optional job recipe.  The template fields are carried as
raw strings; their rendering is an external Jinja call. -/
structure IssueAction where
  id : String
  parent_id : Option String := none
  when : Option String := none
  summary : String := ""
  description : String := ""
  assignee : Option String := none
  newa_id : Option String := none
  on_respin : OnRespinAction := OnRespinAction.close
  job_recipe : Option String := none
deriving DecidableEq

/-- A raw tracker search result row: the core reads the issue key, its
`description` text and its `status` (the code compares with the strings
"closed" and "opened"). -/
structure RawIssue where
  key : String
  description : String
  status : String
deriving DecidableEq

/-- The sentinel "no issue" id (`JIRA_NONE_ID = '_NO_ISSUE'`, cli.py line 43). -/
def JIRA_NONE_ID : String := "_NO_ISSUE"

/-- External collaborators and CLI options of one `cmd_jira` run, fixed for
the processing of one ArtifactJob: the `--recreate` flag, assignee overrides,
the issue-config group, the rendered outcome of Jinja calls (`eval_test`,
`render_template`), the tracker search (`IssueHandler.get_related_issues`),
the per-action correlation token (`IssueHandler.newa_id`) and the key of a
freshly created issue (`IssueHandler.create_issue`). -/
structure JiraEnv where
  recreate : Bool
  assignee : Option String
  unassigned : Bool
  groupCfg : Option String
  evalTest : String → Bool
  renderTemplate : String → String
  search : IssueAction → List RawIssue
  newaIdOf : IssueAction → String
  createIssueId : IssueAction → String

/-- Effects emitted while reconciling one action: issue creation, refresh of
a reused issue, persisting a JiraJob, and closing an obsoleted issue with the
issue that obsoleted it. -/
inductive JiraEffect
  | createIssue (actionId summary description : String)
      (assignee : Option String) (parent : Option Issue) (issue : Issue)
  | refreshIssue (actionId : String) (issue : Issue)
  | saveJiraJob (issue : Issue) (recipeUrl : String)
  | dropObsoleted (old : Issue) (obsoletedBy : Option Issue)
deriving DecidableEq

/-- The fatal errors of the reconciliation loop (cli.py lines 376, 478, 491). -/
inductive JiraError
  | parentNotFound (parentId actionId : String)
  | moreThanOneNewIssue (actionId : String)
  | invalidRespinAction (actionId : String)
deriving DecidableEq

/-- Tracker search for issues related to an action, cli.py lines 386-391:
`recreate` restricts the search to open issues only, otherwise closed issues
are included.  Modelled from the spec: the tracker-side filtering of
`get_related_issues(..., closed=False)` keeps only open issues. -/
def relatedIssues (search : IssueAction → List RawIssue) (recreate : Bool)
    (a : IssueAction) : List RawIssue :=
  if recreate then (search a).filter (fun r => r.status == ("opened"))
  else search a

/-- The `is_new` classification of one search result, cli.py lines 406-410:
the issue is new iff the action's correlation token occurs in its description
AND the action either has no parent or its parent is not among the actions for
which a new issue was created in this run. -/
def isNewIssue (token : String) (a : IssueAction) (createdActionIds : List String)
    (raw : RawIssue) : Bool :=
  occursIn token raw.description &&
    (match a.parent_id with
     | none => true
     | some p => !(createdActionIds.contains p))

/-- Issue constructed from a new search result, cli.py lines 413-417. -/
def toNewIssue (group : Option String) (raw : RawIssue) : Issue :=
  { id := raw.key, group := group, closed := raw.status == ("closed") }

/-- Issue constructed from an old (reusable) search result, cli.py lines 419-424. -/
def toOldIssue (group : Option String) (raw : RawIssue) : Issue :=
  { id := raw.key, group := group, closed := false }

/-- Partitioning of the search results into new and old issues,
cli.py lines 394-424: new issues carry the correlation token (see
`isNewIssue`); otherwise only still-open issues are kept as old. -/
def classifyIssues (token : String) (a : IssueAction) (createdActionIds : List String)
    (group : Option String) (searchResult : List RawIssue) : List Issue × List Issue :=
  searchResult.foldl
    (fun acc raw =>
      if isNewIssue token a createdActionIds raw then
        (acc.1 ++ [toNewIssue group raw], acc.2)
      else if raw.status == ("opened") then
        (acc.1, acc.2 ++ [toOldIssue group raw])
      else acc)
    ([], [])

/-- Respin policy, cli.py lines 426-429: old open issues are reused as the new
set when `on_respin` is KEEP, and the old set is cleared. -/
def applyRespin (a : IssueAction) (newIssues oldIssues : List Issue) :
    List Issue × List Issue :=
  if !oldIssues.isEmpty && a.on_respin == OnRespinAction.keep then
    (newIssues ++ oldIssues, [])
  else (newIssues, oldIssues)

/-- Closed-issue cutoff, cli.py lines 431-443: unless in recreate mode, when
new issues exist but none is open the action is already done (`none`);
otherwise processing continues with the open new issues. -/
def filterClosedNew (recreate : Bool) (newIssues : List Issue) : Option (List Issue) :=
  if !newIssues.isEmpty && !recreate then
    let openedIssues := newIssues.filter (fun i => !i.closed)
    if openedIssues.isEmpty then none
    else some openedIssues
  else some newIssues

/-- Result of resolving one action to exactly one issue. -/
structure ResolveOut where
  issue : Issue
  processedActions : List (String × Issue)
  createdActionIds : List String
  effects : List JiraEffect
deriving DecidableEq

/-- Resolution of an action to exactly one issue, cli.py lines 445-478:
zero new issues → create one, linked to the parent's resolved issue;
exactly one → refresh it; more than one → fatal error.  In the first two
cases the resolution is recorded in `processed_actions`. -/
def resolveIssue (env : JiraEnv) (a : IssueAction)
    (rSummary rDescription : String) (rAssignee : Option String)
    (processed : List (String × Issue)) (createdActionIds : List String)
    (newIssues : List Issue) : Except JiraError ResolveOut :=
  match newIssues with
  | [] =>
    let parent : Option Issue :=
      match a.parent_id with
      | some p => lookupA processed p
      | none => none
    let newIssue : Issue := { id := env.createIssueId a, group := env.groupCfg, closed := false }
    Except.ok
      { issue := newIssue
        processedActions := setA processed a.id newIssue
        createdActionIds := createdActionIds ++ [a.id]
        effects := [JiraEffect.createIssue a.id rSummary rDescription rAssignee parent newIssue] }
  | [i] =>
    Except.ok
      { issue := i
        processedActions := setA processed a.id i
        createdActionIds := createdActionIds
        effects := [JiraEffect.refreshIssue a.id i] }
  | _ => Except.error (JiraError.moreThanOneNewIssue a.id)

/-- Closing of obsoleted old issues, cli.py lines 488-496: any remaining old
issue requires `on_respin = CLOSE` (otherwise fatal); each one is dropped,
recording the action's resolved issue as the obsoleting reference. -/
def closeOldIssues (a : IssueAction) (processed : List (String × Issue))
    (oldIssues : List Issue) : Except JiraError (List JiraEffect) :=
  if oldIssues.isEmpty then Except.ok []
  else if a.on_respin != OnRespinAction.close then
    Except.error (JiraError.invalidRespinAction a.id)
  else Except.ok (oldIssues.map (fun o => JiraEffect.dropObsoleted o (lookupA processed a.id)))

/-- State carried out of the processing of one action. -/
structure ActionOutcome where
  processedActions : List (String × Issue)
  createdActionIds : List String
  effects : List JiraEffect
deriving DecidableEq

/-- Processing of one action once its parent is available, cli.py lines
384-496: search, classify, apply the respin policy, cut off closed new
issues (`Except.ok none` is the `continue` of line 441), resolve to exactly
one issue, emit the JiraJob if the action carries a recipe, and close
remaining old issues. -/
def processAction (env : JiraEnv) (processed : List (String × Issue))
    (createdActionIds : List String) (a : IssueAction)
    (rSummary rDescription : String) (rAssignee : Option String) :
    Except JiraError (Option ActionOutcome) :=
  let token := env.newaIdOf a
  let searchResult := relatedIssues env.search env.recreate a
  let cls := classifyIssues token a createdActionIds env.groupCfg searchResult
  let rsp := applyRespin a cls.1 cls.2
  match filterClosedNew env.recreate rsp.1 with
  | none => Except.ok none
  | some newIssues =>
    match resolveIssue env a rSummary rDescription rAssignee processed createdActionIds
        newIssues with
    | Except.error e => Except.error e
    | Except.ok res =>
      let effectsWithJob :=
        match a.job_recipe with
        | some url => res.effects ++ [JiraEffect.saveJiraJob res.issue url]
        | none => res.effects
      match closeOldIssues a res.processedActions rsp.2 with
      | Except.error e => Except.error e
      | Except.ok closeEffects =>
        Except.ok (some
          { processedActions := res.processedActions
            createdActionIds := res.createdActionIds
            effects := effectsWithJob ++ closeEffects })

/-! ## The reconciliation work loop (cli.py lines 313-496) -/

/-- Mutable state of the `while issue_actions:` loop: the FIFO work queue,
the map of resolved actions, the ids of actions whose issue was newly
created, the per-action queue-length tracker and the emitted effects. -/
structure JiraState where
  queue : List IssueAction
  processedActions : List (String × Issue)
  createdActionIds : List String
  endlessLoopCheck : List (String × Nat)
  effects : List JiraEffect

/-- Initial loop state: the action forest as the queue, everything else
empty (cli.py lines 313-323). -/
def initJiraState (actions : List IssueAction) : JiraState :=
  { queue := actions
    processedActions := []
    createdActionIds := []
    endlessLoopCheck := []
    effects := [] }

/-- The `when` predicate is declared and evaluates to false
(cli.py lines 332-339). -/
def whenSkipped (env : JiraEnv) (a : IssueAction) : Bool :=
  match a.when with
  | some w => !env.evalTest w
  | none => false

/-- The action declares a parent that has not yet been resolved
(cli.py line 372). -/
def needsDefer (processed : List (String × Issue)) (a : IssueAction) : Bool :=
  match a.parent_id with
  | some p => (lookupA processed p).isNone
  | none => false

/-- Rendered assignee (cli.py lines 351-362): the CLI `--assignee` override,
then `--unassigned`, then the action's template. -/
def renderedAssignee (env : JiraEnv) (a : IssueAction) : Option String :=
  match env.assignee with
  | some s => some s
  | none =>
    if env.unassigned then none
    else
      match a.assignee with
      | some s => some (env.renderTemplate s)
      | none => none

/-- One iteration of the loop either finds the queue empty, halts with a
fatal error, or steps to a new state. -/
inductive StepOut
  | done (st : JiraState)
  | halt (e : JiraError)
  | next (st : JiraState)

/-- One iteration of the `while issue_actions:` loop, cli.py lines 327-496:
pop the head; drop it when its `when` predicate is false; defer it to the
queue tail when its parent is unresolved, raising the fatal parent-not-found
error when the queue length equals the length recorded at this action's
previous deferral; otherwise process it fully. -/
def jiraStep (env : JiraEnv) (st : JiraState) : StepOut :=
  match st.queue with
  | [] => StepOut.done st
  | a :: rest =>
    if whenSkipped env a then StepOut.next { st with queue := rest }
    else
      let rSummary := env.renderTemplate a.summary
      let rDescription := env.renderTemplate a.description
      let rAssignee := renderedAssignee env a
      if needsDefer st.processedActions a then
        let queueLength := rest.length
        let lastQueueLength := (lookupA st.endlessLoopCheck a.id).getD 0
        if lastQueueLength == queueLength then
          StepOut.halt (JiraError.parentNotFound (a.parent_id.getD ("")) a.id)
        else
          StepOut.next
            { st with
              queue := rest ++ [a]
              endlessLoopCheck := setA st.endlessLoopCheck a.id queueLength }
      else
        match processAction env st.processedActions st.createdActionIds a
            rSummary rDescription rAssignee with
        | Except.error e => StepOut.halt e
        | Except.ok none => StepOut.next { st with queue := rest }
        | Except.ok (some out) =>
          StepOut.next
            { st with
              queue := rest
              processedActions := out.processedActions
              createdActionIds := out.createdActionIds
              effects := st.effects ++ out.effects }

/-- Fuel-indexed driver of the loop; `none` means the fuel ran out. -/
def jiraLoop (env : JiraEnv) : Nat → JiraState → Option (Except JiraError JiraState)
  | 0, _ => none
  | fuel + 1, st =>
    match jiraStep env st with
    | StepOut.done stf => some (Except.ok stf)
    | StepOut.halt e => some (Except.error e)
    | StepOut.next st2 => jiraLoop env fuel st2

/-! ### Termination of the loop

The measure sums, over the queue, one plus the potential of each action: the
queue length recorded at the action's last deferral, or `N + 1` if it was
never deferred (`N` bounds the queue length).  Every step strictly decreases
it. -/

/-- Potential of an action: its recorded deferral queue length, else `N + 1`. -/
def potOf (N : Nat) (m : List (String × Nat)) (a : IssueAction) : Nat :=
  match lookupA m a.id with
  | some v => v
  | none => N + 1

/-- Termination measure of the loop. -/
def jmeasure (N : Nat) (q : List IssueAction) (m : List (String × Nat)) : Nat :=
  (q.map (fun a => potOf N m a + 1)).sum

/-- Loop invariant: the queue never exceeds `N` elements, and every recorded
deferral length `v` satisfies `queue length ≤ v + 1`. -/
def JiraInv (N : Nat) (q : List IssueAction) (m : List (String × Nat)) : Prop :=
  q.length ≤ N ∧ ∀ p ∈ m, q.length ≤ p.2 + 1

theorem jmeasure_cons (N : Nat) (a : IssueAction) (q : List IssueAction)
    (m : List (String × Nat)) :
    jmeasure N (a :: q) m = (potOf N m a + 1) + jmeasure N q m := by
  simp [jmeasure]

theorem jmeasure_tail_lt (N : Nat) (a : IssueAction) (q : List IssueAction)
    (m : List (String × Nat)) : jmeasure N q m < jmeasure N (a :: q) m := by
  rw [jmeasure_cons]
  omega

theorem jiraInv_tail (N : Nat) (a : IssueAction) (q : List IssueAction)
    (m : List (String × Nat)) (h : JiraInv N (a :: q) m) : JiraInv N q m := by
  obtain ⟨h1, h2⟩ := h
  refine ⟨by simpa using Nat.le_of_succ_le (by simpa using h1), ?_⟩
  intro p hp
  have := h2 p hp
  simp at this ⊢
  omega

/-- The deferral step strictly decreases the measure and preserves the
invariant. -/
theorem jmeasure_defer (N : Nat) (a : IssueAction) (rest : List IssueAction)
    (m : List (String × Nat))
    (hInv : JiraInv N (a :: rest) m)
    (hne : (lookupA m a.id).getD 0 ≠ rest.length) :
    jmeasure N (rest ++ [a]) (setA m a.id rest.length) < jmeasure N (a :: rest) m ∧
      JiraInv N (rest ++ [a]) (setA m a.id rest.length) := by
  obtain ⟨hlen, hrec⟩ := hInv
  have hlen' : rest.length + 1 ≤ N := by simpa using hlen
  -- the head's potential strictly dominates the new deferral record
  have hKey : rest.length < potOf N m a := by
    cases hl : lookupA m a.id with
    | none => simp [potOf, hl]; omega
    | some v =>
      have hv : (a.id, v) ∈ m := lookupA_mem m a.id v hl
      have := hrec (a.id, v) hv
      simp at this
      simp [potOf, hl]
      have hvne : v ≠ rest.length := by
        intro hc
        apply hne
        simp [hl, hc]
      omega
  constructor
  · -- measure strictly decreases
    have hpt : ∀ x ∈ rest, potOf N (setA m a.id rest.length) x + 1 ≤ potOf N m x + 1 := by
      intro x hx
      by_cases hid : x.id = a.id
      · have h1 : potOf N (setA m a.id rest.length) x = rest.length := by
          simp [potOf, hid, lookupA_setA_self]
        have h2 : potOf N m x = potOf N m a := by simp [potOf, hid]
        omega
      · have h1 : potOf N (setA m a.id rest.length) x = potOf N m x := by
          simp [potOf, lookupA_setA_ne m a.id x.id rest.length hid]
        omega
    have hsum : jmeasure N rest (setA m a.id rest.length) ≤ jmeasure N rest m := by
      unfold jmeasure
      exact List.sum_le_sum hpt
    have happ : jmeasure N (rest ++ [a]) (setA m a.id rest.length) =
        jmeasure N rest (setA m a.id rest.length) + (rest.length + 1) := by
      unfold jmeasure
      simp [potOf, lookupA_setA_self]
    rw [happ, jmeasure_cons]
    omega
  · -- invariant preserved
    constructor
    · simpa using hlen
    · intro p hp
      rcases mem_setA m a.id rest.length p hp with h | h
      · subst h
        simp
      · have := hrec p h
        simp at this ⊢
        omega

/-- Any non-halting step of the loop strictly decreases the measure and
preserves the invariant. -/
theorem jiraStep_next (env : JiraEnv) (N : Nat) (st st2 : JiraState)
    (hInv : JiraInv N st.queue st.endlessLoopCheck)
    (h : jiraStep env st = StepOut.next st2) :
    jmeasure N st2.queue st2.endlessLoopCheck < jmeasure N st.queue st.endlessLoopCheck ∧
      JiraInv N st2.queue st2.endlessLoopCheck := by
  cases hq : st.queue with
  | nil =>
    rw [jiraStep, hq] at h
    cases h
  | cons a rest =>
    rw [jiraStep, hq] at h
    dsimp only at h
    rw [hq] at hInv
    by_cases hskip : whenSkipped env a = true
    · rw [if_pos hskip] at h
      cases h
      exact ⟨jmeasure_tail_lt N a rest st.endlessLoopCheck,
        jiraInv_tail N a rest st.endlessLoopCheck hInv⟩
    · rw [if_neg hskip] at h
      by_cases hdefer : needsDefer st.processedActions a = true
      · rw [if_pos hdefer] at h
        by_cases heq : ((lookupA st.endlessLoopCheck a.id).getD 0 == rest.length) = true
        · rw [if_pos heq] at h
          cases h
        · rw [if_neg heq] at h
          cases h
          exact jmeasure_defer N a rest st.endlessLoopCheck hInv (by simpa using heq)
      · rw [if_neg hdefer] at h
        cases hpa : processAction env st.processedActions st.createdActionIds a
            (env.renderTemplate a.summary) (env.renderTemplate a.description)
            (renderedAssignee env a) with
        | error e => rw [hpa] at h; cases h
        | ok res =>
          rw [hpa] at h
          cases res with
          | none =>
            cases h
            exact ⟨jmeasure_tail_lt N a rest st.endlessLoopCheck,
              jiraInv_tail N a rest st.endlessLoopCheck hInv⟩
          | some out =>
            cases h
            exact ⟨jmeasure_tail_lt N a rest st.endlessLoopCheck,
              jiraInv_tail N a rest st.endlessLoopCheck hInv⟩

/-- With fuel exceeding the measure, the loop never runs out of fuel. -/
theorem jiraLoop_isSome (env : JiraEnv) (N : Nat) :
    ∀ (fuel : Nat) (st : JiraState),
      JiraInv N st.queue st.endlessLoopCheck →
      jmeasure N st.queue st.endlessLoopCheck < fuel →
      (jiraLoop env fuel st).isSome = true := by
  intro fuel
  induction fuel with
  | zero => intro st _ hm; omega
  | succ f ih =>
    intro st hInv hm
    rw [jiraLoop]
    cases hstep : jiraStep env st with
    | done stf => simp
    | halt e => simp
    | next st2 =>
      simp only
      obtain ⟨hlt, hInv2⟩ := jiraStep_next env N st st2 hInv hstep
      exact ih st2 hInv2 (by omega)

theorem jmeasure_init (N : Nat) (actions : List IssueAction) :
    jmeasure N actions [] = actions.length * (N + 2) := by
  induction actions with
  | nil => simp [jmeasure]
  | cons a rest ih =>
    rw [jmeasure_cons, ih]
    simp [potOf, lookupA]
    ring

/-! ## The no-config branch of `cmd_jira` (cli.py lines 498-519) -/

/-- The no-issue-config branch of `cmd_jira`: `--job-recipe` is mandatory;
an explicitly given `--issue` is verified against the tracker and used,
otherwise the sentinel `JIRA_NONE_ID` issue is used so later stages skip
Jira reporting.  `issueExists` models the external
`jira_connection.issue(issue)` verification call (line 506), which raises
when the issue does not exist. -/
def jiraNoConfig (issueExists : String → Bool) (jobRecipe : Option String)
    (issueOpt : Option String) : Except String Issue :=
  match jobRecipe with
  | none => Except.error ("Option --job-recipe is mandatory when --issue-config is not set")
  | some _ =>
    match issueOpt with
    | some i =>
      if issueExists i then Except.ok { id := i, group := none, closed := false }
      else Except.error (("issue ") ++ i ++ (" does not exist"))
    | none => Except.ok { id := JIRA_NONE_ID, group := none, closed := false }

/-! ## The execution worker (`worker`, cli.py lines 663-740) -/

/-- A Testing Farm request handle: its API endpoint and unique id
(spec section 6, execution service client). -/
structure TFRequest where
  api : String
  uuid : String
deriving DecidableEq

/-- Modelled from the spec: `Execution` — \x7brequest_uuid, request_api,
batch_id, command, artifacts_url, return_code\x7d; the mutable record of a
single remote run (`newa/__init__.py` is not under src/). -/
structure Execution where
  request_uuid : String
  request_api : String
  batch_id : String
  command : String
  artifacts_url : Option String := none
  return_code : Option Nat := none
deriving DecidableEq

/-- External collaborators and options of one `worker` call: the
`--continue` flag, the persisted `execute-` record when its file exists,
the handle returned by `initiate_tf_request`, the command line from
`generate_tf_exec_command`, the ReportPortal token and the batch id
`request.get_hash(ctx.timestamp)`. -/
structure WorkerEnv where
  continueExecution : Bool
  persistedExecution : Option Execution
  submitResult : TFRequest
  commandArgs : List String
  rpToken : String
  batchId : String

/-- Observable outcome of the pre-poll part of `worker`: how many
submission calls were made, the request handle used for polling, whether
the first poll delay is skipped, and the persisted `ExecuteJob` records. -/
structure WorkerSetup where
  submissions : Nat
  tfRequest : TFRequest
  skipInitialSleep : Bool
  saved : List Execution
deriving DecidableEq

/-- The submission path of `worker`, cli.py lines 687-712: file the request,
build its command line, hide the ReportPortal token, and persist an
ExecuteJob whose `return_code` is intentionally unset. -/
def workerSubmit (env : WorkerEnv) : WorkerSetup :=
  let command := String.intercalate (" ") env.commandArgs
  let hidden := pyReplaceStr command env.rpToken ("***")
  { submissions := 1
    tfRequest := env.submitResult
    skipInitialSleep := false
    saved := [{ request_uuid := env.submitResult.uuid
                request_api := env.submitResult.api
                batch_id := env.batchId
                command := hidden }] }

/-- The pre-poll part of `worker`, cli.py lines 673-712: with `--continue`
and an existing `execute-` record, skip submission, rebuild the handle from
the persisted request uuid and API endpoint, and skip the first poll delay;
otherwise submit a new request. -/
def workerSetup (env : WorkerEnv) : WorkerSetup :=
  if env.continueExecution then
    match env.persistedExecution with
    | some e =>
      { submissions := 0
        tfRequest := { api := e.request_api, uuid := e.request_uuid }
        skipInitialSleep := true
        saved := [] }
    | none => workerSubmit env
  else workerSubmit env

/-- A fetched Testing Farm state snapshot (`tf_request.details['state']`). -/
structure TFDetails where
  state : String
deriving DecidableEq

/-- The polling loop of `worker`, cli.py lines 714-729, driven by the trace
of successive `fetch_details` results: each iteration sleeps unless the
initial sleep is being skipped, then reads the state; the loop ends on a
terminal state.  Returns the number of sleeps performed and the terminal
snapshot, if reached within the trace. -/
def pollLoop (skip : Bool) : List (Option TFDetails) → Nat × Option TFDetails
  | [] => (0, none)
  | d :: rest =>
    let sleeps := if skip then 0 else 1
    match d with
    | some det =>
      if det.state == ("complete") || det.state == ("error") then (sleeps, some det)
      else
        let r := pollLoop false rest
        (sleeps + r.1, r.2)
    | none =>
      let r := pollLoop false rest
      (sleeps + r.1, r.2)

/-! ## The result reporter (`cmd_report`, cli.py lines 743-855) -/

/-- One aggregated composite key (`record_id`) of the reporter: the issue id,
the launch name/description from the recipe, the optional comment visibility
group, and — in the sorted processing order of line 814 — the request ids
with the ReportPortal launches found for their batch ids. -/
structure ReportRecord where
  jiraId : String
  launchName : Option String
  launchDescription : Option String
  group : Option String
  requests : List (String × List String)
deriving DecidableEq

/-- Observable outcome of processing one composite key. -/
structure RecordOutcome where
  description : String
  finalLaunches : List String
  mergeAttempted : Bool
  noLaunchError : Bool
  mergeError : Bool
  comment : Option (String × String × Option String)
deriving DecidableEq

/-- The status line of one request, cli.py lines 815-819: COMPLETED iff a
non-empty launch list was found for its batch id. -/
def requestLine (p : String × List String) : String :=
  if p.2.length != 0 then ("  ") ++ p.1 ++ (": COMPLETED<br>")
  else ("  ") ++ p.1 ++ (": MISSING<br>")

/-- The per-request loop of lines 814-819: build the status lines and
collect the launches of completed requests. -/
def buildRequestLines (reqs : List (String × List String)) : String × List String :=
  reqs.foldl
    (fun acc p =>
      if p.2.length != 0 then
        (acc.1 ++ (("  ") ++ p.1 ++ (": COMPLETED<br>")), acc.2 ++ p.2)
      else (acc.1 ++ (("  ") ++ p.1 ++ (": MISSING<br>")), acc.2))
    (("", []))

/-- Closed form of the status lines built by `buildRequestLines`. -/
def linesOf : List (String × List String) → String
  | [] => ""
  | p :: rest => requestLine p ++ linesOf rest

/-- Closed form of the launch list collected by `buildRequestLines`. -/
def launchesOf : List (String × List String) → List String
  | [] => []
  | p :: rest => (if p.2.length != 0 then p.2 else []) ++ launchesOf rest

/-- The header line of line 813. -/
def recordHeader (jiraId : String) (n : Nat) : String :=
  jiraId ++ (": ") ++ toString n ++ (" requests in total<br>")

/-- Processing of one composite key, cli.py lines 802-855: build the
description, collect launches, merge when more than one was found, and post
the comment unless the issue id is the sentinel; a failing comment call
raises (is an `Except.error`).  `mergeLaunches`, `getLaunchUrl` and
`addCommentOk` model the external ReportPortal and Jira clients. -/
def processRecord (mergeLaunches : List String → String → String → Option String)
    (getLaunchUrl : String → String) (addCommentOk : String → Bool)
    (rec : ReportRecord) : Except String RecordOutcome :=
  let baseDescription :=
    match rec.launchDescription with
    | some d => d ++ ("<br><br>")
    | none => ""
  let bl := buildRequestLines rec.requests
  let description := baseDescription ++ recordHeader rec.jiraId rec.requests.length ++ bl.1
  let name :=
    match rec.launchName with
    | some n => n
    | none => "unspecified_newa_launch_name"
  if bl.2.length == 0 then
    Except.ok
      { description := description, finalLaunches := [], mergeAttempted := false,
        noLaunchError := true, mergeError := false, comment := none }
  else
    let merged :=
      if bl.2.length > 1 then
        match mergeLaunches bl.2 name description with
        | some m => (([m] : List String), true, false)
        | none => (bl.2, true, true)
      else (bl.2, false, false)
    let launchUrls := merged.1.map getLaunchUrl
    if rec.jiraId != JIRA_NONE_ID then
      if addCommentOk rec.jiraId then
        let joinedUrls := String.intercalate ("\n") launchUrls
        let descriptionNl := pyReplaceStr description ("<br>") ("\n")
        Except.ok
          { description := description, finalLaunches := merged.1,
            mergeAttempted := merged.2.1, noLaunchError := false, mergeError := merged.2.2,
            comment := some (rec.jiraId,
              ("NEWA has imported test results to\n") ++ joinedUrls ++ ("\n\n") ++ descriptionNl,
              rec.group) }
      else Except.error (("Unable to add a comment to issue ") ++ rec.jiraId ++ ("!"))
    else
      Except.ok
        { description := description, finalLaunches := merged.1,
          mergeAttempted := merged.2.1, noLaunchError := false, mergeError := merged.2.2,
          comment := none }

/-- The reporter's loop over all composite keys, cli.py line 802: processed
in order; a raised error aborts the loop, keeping the outcomes produced so
far and dropping the remaining records. -/
def reportLoop (mergeLaunches : List String → String → String → Option String)
    (getLaunchUrl : String → String) (addCommentOk : String → Bool) :
    List ReportRecord → List RecordOutcome × Option String
  | [] => ([], none)
  | r :: rs =>
    match processRecord mergeLaunches getLaunchUrl addCommentOk r with
    | Except.error e => ([], some e)
    | Except.ok o =>
      let rest := reportLoop mergeLaunches getLaunchUrl addCommentOk rs
      (o :: rest.1, rest.2)

/-! ## Claim C1 -/

/-- C1: For every action forest processed for an ArtifactJob, the
issue-reconciliation work loop terminates: an action whose declared parent is
not yet resolved is re-appended to the tail of the queue, and if the queue
length observed at this action's deferral equals the length observed at its
previous deferral, a fatal parent-not-found error is raised instead of
retrying; hence the loop either resolves each runnable action or fails —
with fuel quadratic in the number of actions (at most |actions| requeue
cycles of the queue), the loop always reaches a result. -/
theorem cmd_jira_loop_terminates (env : JiraEnv) (actions : List IssueAction) :
    (∀ (st : JiraState) (a : IssueAction) (rest : List IssueAction),
      st.queue = a :: rest → whenSkipped env a = false →
      needsDefer st.processedActions a = true →
      ((lookupA st.endlessLoopCheck a.id).getD 0 = rest.length →
        jiraStep env st = StepOut.halt (JiraError.parentNotFound (a.parent_id.getD ("")) a.id)) ∧
      ((lookupA st.endlessLoopCheck a.id).getD 0 ≠ rest.length →
        jiraStep env st = StepOut.next
          { st with
            queue := rest ++ [a]
            endlessLoopCheck := setA st.endlessLoopCheck a.id rest.length })) ∧
    (jiraLoop env (actions.length * (actions.length + 2) + 1)
      (initJiraState actions)).isSome = true := by
  constructor
  · intro st a rest hq hskip hdefer
    constructor
    · intro heq
      rw [jiraStep, hq]
      dsimp only
      rw [if_neg (by simp [hskip]), if_pos hdefer, if_pos (by simp [heq])]
    · intro hne
      rw [jiraStep, hq]
      dsimp only
      rw [if_neg (by simp [hskip]), if_pos hdefer, if_neg (by simp [hne])]
  · apply jiraLoop_isSome env actions.length
    · exact ⟨Nat.le_refl _, by intro p hp; simp [initJiraState] at hp⟩
    · have := jmeasure_init actions.length actions
      simp only [initJiraState]
      omega

/-- Concrete environment for closed instances: trivial external services. -/
def envC1 : JiraEnv :=
  { recreate := false, assignee := none, unassigned := false, groupCfg := none,
    evalTest := fun _ => true, renderTemplate := fun s => s,
    search := fun _ => [], newaIdOf := fun _ => "", createIssueId := fun _ => "NEW-1" }

/-- An action whose declared parent never appears. -/
def actC1 : IssueAction := { id := "c", parent_id := some ("p") }

theorem cmd_jira_loop_terminates_witness :
    jiraStep envC1 (initJiraState [actC1]) =
      StepOut.halt (JiraError.parentNotFound ("p") ("c")) ∧
    (jiraLoop envC1 4 (initJiraState [actC1])).isSome = true := by
  have h := cmd_jira_loop_terminates envC1 [actC1]
  exact ⟨(h.1 (initJiraState [actC1]) actC1 [] rfl rfl rfl).1 rfl, h.2⟩

/-! ## Claim C2 -/

theorem classify_fold_aux (token : String) (a : IssueAction) (cids : List String)
    (grp : Option String) :
    ∀ (rs : List RawIssue) (n0 o0 : List Issue),
      rs.foldl
        (fun acc raw =>
          if isNewIssue token a cids raw then (acc.1 ++ [toNewIssue grp raw], acc.2)
          else if raw.status == ("opened") then (acc.1, acc.2 ++ [toOldIssue grp raw])
          else acc)
        (n0, o0) =
      (n0 ++ (rs.filter (fun r => isNewIssue token a cids r)).map (toNewIssue grp),
       o0 ++ (rs.filter (fun r => !isNewIssue token a cids r && (r.status == ("opened")))).map
         (toOldIssue grp)) := by
  intro rs
  induction rs with
  | nil => intro n0 o0; simp
  | cons r rest ih =>
    intro n0 o0
    by_cases hnew : isNewIssue token a cids r = true
    · simp only [List.foldl_cons, hnew, if_true, List.filter_cons]
      rw [ih]
      simp [hnew, List.append_assoc]
    · have hnew' : isNewIssue token a cids r = false := by
        revert hnew; cases isNewIssue token a cids r <;> simp
      by_cases hop : (r.status == ("opened")) = true
      · simp only [List.foldl_cons, hnew', if_false, Bool.false_eq_true, hop, if_true,
          List.filter_cons]
        rw [ih]
        simp [hnew', hop, List.append_assoc]
      · have hop' : (r.status == ("opened")) = false := by
          revert hop; cases r.status == ("opened") <;> simp
        simp only [List.foldl_cons, hnew', if_false, Bool.false_eq_true, hop', List.filter_cons]
        rw [ih]
        simp [hnew', hop']

/-- C2 (amended): during issue discovery the search includes closed issues
unless recreate mode restricts it to open ones; a returned issue is
classified as new exactly when the action's correlation token occurs in its
description AND the action's declared parent (if any) is not among the
actions whose issue was newly created in this run; otherwise it is old
exactly when its status is still open. -/
theorem issue_classification (token : String) (a : IssueAction) (cids : List String)
    (grp : Option String) (rs : List RawIssue) (search : IssueAction → List RawIssue) :
    classifyIssues token a cids grp rs =
      ((rs.filter (fun r => isNewIssue token a cids r)).map (toNewIssue grp),
       (rs.filter (fun r => !isNewIssue token a cids r && (r.status == ("opened")))).map
         (toOldIssue grp)) ∧
    (∀ r : RawIssue, isNewIssue token a cids r =
      (occursIn token r.description &&
        (match a.parent_id with
         | none => true
         | some p => !(cids.contains p)))) ∧
    relatedIssues search true a = (search a).filter (fun r => r.status == ("opened")) ∧
    relatedIssues search false a = search a := by
  refine ⟨?_, fun r => rfl, rfl, rfl⟩
  unfold classifyIssues
  simpa using classify_fold_aux token a cids grp rs [] []

/-- An action with a declared parent, for the classification counterexample. -/
def actC2 : IssueAction := { id := "child", parent_id := some ("parent-a") }

/-- C2 counterexample: the correlation token occurs in the issue's
description, yet — because the action's parent is among the actions whose
issue was newly created in this run — the issue is classified as old, not
new; so "new exactly when the token appears" fails on the code. -/
theorem issue_classification_counterexample :
    occursIn ("NEWA-TOK") ("body NEWA-TOK body") = true ∧
    classifyIssues ("NEWA-TOK") actC2 ["parent-a"] none
        [{ key := "K-7", description := "body NEWA-TOK body", status := "opened" }] =
      ([], [{ id := "K-7", group := none, closed := false }]) := by
  constructor
  · decide
  · decide

/-! ## Claim C3 -/

/-- The issue returned by `IssueHandler.create_issue` for an action.
Modelled from the spec: the tracker's create capability returns the issue,
scoped to the configuration's group and open. -/
def createdIssue (env : JiraEnv) (a : IssueAction) : Issue :=
  { id := env.createIssueId a, group := env.groupCfg, closed := false }

/-- C3: after respin handling, each action resolves to exactly one issue:
zero new issues → a new issue is created, linked to the parent action's
resolved issue when a parent is declared, and the resolution is recorded;
exactly one → that issue is refreshed, not created, and the resolution is
recorded; more than one → a fatal consistency error and no issue. -/
theorem issue_resolution_trichotomy (env : JiraEnv) (a : IssueAction)
    (rS rD : String) (rA : Option String)
    (processed : List (String × Issue)) (cIds : List String) :
    (∀ (p : String) (parentIssue : Issue), a.parent_id = some p →
      lookupA processed p = some parentIssue →
      resolveIssue env a rS rD rA processed cIds [] =
        Except.ok
          { issue := createdIssue env a
            processedActions := setA processed a.id (createdIssue env a)
            createdActionIds := cIds ++ [a.id]
            effects := [JiraEffect.createIssue a.id rS rD rA (some parentIssue)
              (createdIssue env a)] } ∧
      lookupA (setA processed a.id (createdIssue env a)) a.id = some (createdIssue env a)) ∧
    (a.parent_id = none →
      resolveIssue env a rS rD rA processed cIds [] =
        Except.ok
          { issue := createdIssue env a
            processedActions := setA processed a.id (createdIssue env a)
            createdActionIds := cIds ++ [a.id]
            effects := [JiraEffect.createIssue a.id rS rD rA none (createdIssue env a)] } ∧
      lookupA (setA processed a.id (createdIssue env a)) a.id = some (createdIssue env a)) ∧
    (∀ i : Issue,
      resolveIssue env a rS rD rA processed cIds [i] =
        Except.ok
          { issue := i, processedActions := setA processed a.id i,
            createdActionIds := cIds, effects := [JiraEffect.refreshIssue a.id i] } ∧
      lookupA (setA processed a.id i) a.id = some i) ∧
    (∀ (i j : Issue) (tl : List Issue),
      resolveIssue env a rS rD rA processed cIds (i :: j :: tl) =
        Except.error (JiraError.moreThanOneNewIssue a.id)) := by
  refine ⟨?_, ?_, ?_, ?_⟩
  · intro p parentIssue hp hlk
    exact ⟨by simp [resolveIssue, createdIssue, hp, hlk], by simp [lookupA_setA_self]⟩
  · intro hp
    exact ⟨by simp [resolveIssue, createdIssue, hp], by simp [lookupA_setA_self]⟩
  · intro i
    exact ⟨rfl, by simp [lookupA_setA_self]⟩
  · intro i j tl
    rfl

/-- A resolved parent issue for the C3 witness. -/
def issueA : Issue := { id := "J-1", group := none, closed := false }

/-- A child action for the C3 witness. -/
def actC3 : IssueAction := { id := "b", parent_id := some ("a") }

theorem issue_resolution_trichotomy_witness :
    resolveIssue envC1 actC3 ("s") ("d") none [(("a"), issueA)] [] [] =
      Except.ok
        { issue := createdIssue envC1 actC3
          processedActions := setA [(("a"), issueA)] ("b") (createdIssue envC1 actC3)
          createdActionIds := [] ++ [("b")]
          effects := [JiraEffect.createIssue ("b") ("s") ("d") none (some issueA)
            (createdIssue envC1 actC3)] } ∧
    lookupA (setA [(("a"), issueA)] ("b") (createdIssue envC1 actC3)) ("b") =
      some (createdIssue envC1 actC3) :=
  (issue_resolution_trichotomy envC1 actC3 ("s") ("d") none [(("a"), issueA)] []).1
    ("a") issueA rfl (by decide)

/-! ## Claim C4 -/

/-- Whether an effect is an issue creation. -/
def isCreateEffect : JiraEffect → Bool
  | JiraEffect.createIssue _ _ _ _ _ _ => true
  | _ => false

/-- The outcome of processing an action that reuses one old open issue
under `on_respin = KEEP`: the issue is recorded as the action's resolution,
no action id is added to the created list, and the effects are the refresh
plus the JiraJob emission if the action carries a recipe. -/
def keepOut (a : IssueAction) (processed : List (String × Issue)) (cIds : List String)
    (oldIssue : Issue) : ActionOutcome :=
  { processedActions := setA processed a.id oldIssue
    createdActionIds := cIds
    effects := [JiraEffect.refreshIssue a.id oldIssue] ++
      (match a.job_recipe with
       | some url => [JiraEffect.saveJiraJob oldIssue url]
       | none => []) }

/-- Under `on_respin = KEEP`, with a tracker state holding exactly one old
open issue (no token match) for the action, processing resolves to that
issue by reuse, independent of the resolved-actions map. -/
theorem processAction_keep (env : JiraEnv) (a : IssueAction)
    (rS rD : String) (rA : Option String) (cIds : List String)
    (oldKey oldDesc : String)
    (hkeep : a.on_respin = OnRespinAction.keep)
    (hrecreate : env.recreate = false)
    (hsearch : env.search a = [{ key := oldKey, description := oldDesc, status := "opened" }])
    (htok : occursIn (env.newaIdOf a) oldDesc = false) :
    ∀ pr : List (String × Issue),
      processAction env pr cIds a rS rD rA =
        Except.ok (some (keepOut a pr cIds
          { id := oldKey, group := env.groupCfg, closed := false })) := by
  intro pr
  have hcls : classifyIssues (env.newaIdOf a) a cIds env.groupCfg
      (relatedIssues env.search env.recreate a) =
      ([], [{ id := oldKey, group := env.groupCfg, closed := false }]) := by
    rw [hrecreate]
    simp [relatedIssues, hsearch, classifyIssues, isNewIssue, htok, toOldIssue]
  simp only [processAction, hcls]
  simp only [applyRespin, hkeep]
  simp only [filterClosedNew, hrecreate]
  simp [resolveIssue, closeOldIssues, keepOut]
  cases a.job_recipe <;> simp

/-- C4: when old open issues exist for an action whose `on_respin` is KEEP,
they are treated as the new set and the old set is cleared, so
reconciliation is idempotent: with one old open issue in an unchanged
tracker state, both the first and a second run resolve to the same issue id,
create no issue and add nothing to the created-action list. -/
theorem respin_keep_idempotent (env : JiraEnv) (a : IssueAction)
    (rS rD : String) (rA : Option String)
    (processed : List (String × Issue)) (cIds : List String)
    (oldKey oldDesc : String)
    (hkeep : a.on_respin = OnRespinAction.keep)
    (hrecreate : env.recreate = false)
    (hsearch : env.search a = [{ key := oldKey, description := oldDesc, status := "opened" }])
    (htok : occursIn (env.newaIdOf a) oldDesc = false) :
    applyRespin a [] [{ id := oldKey, group := env.groupCfg, closed := false }] =
      ([{ id := oldKey, group := env.groupCfg, closed := false }], []) ∧
    processAction env processed cIds a rS rD rA =
      Except.ok (some (keepOut a processed cIds
        { id := oldKey, group := env.groupCfg, closed := false })) ∧
    lookupA (keepOut a processed cIds
        { id := oldKey, group := env.groupCfg, closed := false }).processedActions a.id =
      some { id := oldKey, group := env.groupCfg, closed := false } ∧
    (keepOut a processed cIds
        { id := oldKey, group := env.groupCfg, closed := false }).effects.filter
      isCreateEffect = [] ∧
    (keepOut a processed cIds
        { id := oldKey, group := env.groupCfg, closed := false }).createdActionIds = cIds ∧
    processAction env
        (keepOut a processed cIds
          { id := oldKey, group := env.groupCfg, closed := false }).processedActions
        (keepOut a processed cIds
          { id := oldKey, group := env.groupCfg, closed := false }).createdActionIds
        a rS rD rA =
      Except.ok (some (keepOut a
        (keepOut a processed cIds
          { id := oldKey, group := env.groupCfg, closed := false }).processedActions
        cIds { id := oldKey, group := env.groupCfg, closed := false })) ∧
    lookupA (keepOut a
        (keepOut a processed cIds
          { id := oldKey, group := env.groupCfg, closed := false }).processedActions
        cIds { id := oldKey, group := env.groupCfg, closed := false }).processedActions a.id =
      some { id := oldKey, group := env.groupCfg, closed := false } := by
  have hmain := processAction_keep env a rS rD rA cIds oldKey oldDesc
    hkeep hrecreate hsearch htok
  refine ⟨?_, hmain processed, ?_, ?_, rfl, hmain _, ?_⟩
  · simp [applyRespin, hkeep]
  · simp [keepOut, lookupA_setA_self]
  · simp only [keepOut]
    cases a.job_recipe <;> simp [isCreateEffect]
  · simp [keepOut, lookupA_setA_self]

/-- Environment for the C4 witness: one old open issue, token absent. -/
def envC4 : JiraEnv :=
  { recreate := false, assignee := none, unassigned := false, groupCfg := none,
    evalTest := fun _ => true, renderTemplate := fun s => s,
    search := fun _ => [{ key := "OLD-1", description := "old body", status := "opened" }],
    newaIdOf := fun _ => "TOK", createIssueId := fun _ => "NEW-1" }

/-- A keep-respin action for the C4 witness. -/
def actC4 : IssueAction := { id := "k", on_respin := OnRespinAction.keep }

theorem respin_keep_idempotent_witness :
    processAction envC4 [] [] actC4 ("s") ("d") none =
      Except.ok (some (keepOut actC4 [] []
        { id := "OLD-1", group := none, closed := false })) ∧
    processAction envC4
        (keepOut actC4 [] [] { id := "OLD-1", group := none, closed := false }).processedActions
        (keepOut actC4 [] [] { id := "OLD-1", group := none, closed := false }).createdActionIds
        actC4 ("s") ("d") none =
      Except.ok (some (keepOut actC4
        (keepOut actC4 [] [] { id := "OLD-1", group := none, closed := false }).processedActions
        [] { id := "OLD-1", group := none, closed := false })) := by
  have h := respin_keep_idempotent envC4 actC4 ("s") ("d") none [] [] ("OLD-1") ("old body")
    rfl rfl rfl (by decide)
  exact ⟨h.2.1, h.2.2.2.2.2.1⟩

/-! ## Claim C5 -/

/-- C5: if old issues remain pending closure for an action, a fatal error is
raised unless the action's `on_respin` is CLOSE; with CLOSE, each old open
issue is closed exactly once, recording the action's newly resolved issue as
the obsoleting reference. -/
theorem old_issue_closing (a : IssueAction) (processed : List (String × Issue))
    (oldIssues : List Issue) (resolved : Issue) :
    (oldIssues ≠ [] → a.on_respin ≠ OnRespinAction.close →
      closeOldIssues a processed oldIssues =
        Except.error (JiraError.invalidRespinAction a.id)) ∧
    (a.on_respin = OnRespinAction.close → lookupA processed a.id = some resolved →
      closeOldIssues a processed oldIssues =
        Except.ok (oldIssues.map (fun o => JiraEffect.dropObsoleted o (some resolved))) ∧
      (oldIssues.Nodup → ∀ o ∈ oldIssues,
        (oldIssues.map (fun o2 => JiraEffect.dropObsoleted o2 (some resolved))).count
          (JiraEffect.dropObsoleted o (some resolved)) = 1)) := by
  constructor
  · intro h1 h2
    cases oldIssues with
    | nil => exact absurd rfl h1
    | cons o os =>
      simp only [closeOldIssues, List.isEmpty_cons, if_false, Bool.false_eq_true]
      rw [if_pos (by simp [h2])]
  · intro hc hl
    constructor
    · cases oldIssues with
      | nil => simp [closeOldIssues]
      | cons o os =>
        simp only [closeOldIssues, List.isEmpty_cons, if_false, Bool.false_eq_true]
        rw [if_neg (by simp [hc]), hl]
    · intro hnd o ho
      have hinj : Function.Injective
          (fun o2 : Issue => JiraEffect.dropObsoleted o2 (some resolved)) := by
        intro x y hxy
        simpa using hxy
      rw [List.count_map_of_injective oldIssues _ hinj o]
      exact List.count_eq_one_of_mem hnd ho

/-- Two distinct old issues for the C5 witness. -/
def oldB : Issue := { id := "OLD-2", group := none, closed := false }

/-- Another old issue for the C5 witness. -/
def oldC : Issue := { id := "OLD-3", group := none, closed := false }

/-- A close-respin action for the C5 witness. -/
def actC5 : IssueAction := { id := "x", on_respin := OnRespinAction.close }

theorem old_issue_closing_witness :
    closeOldIssues actC5 [(("x"), issueA)] [oldB, oldC] =
      Except.ok ([oldB, oldC].map (fun o => JiraEffect.dropObsoleted o (some issueA))) ∧
    ([oldB, oldC].map (fun o2 => JiraEffect.dropObsoleted o2 (some issueA))).count
      (JiraEffect.dropObsoleted oldB (some issueA)) = 1 := by
  have h := (old_issue_closing actC5 [(("x"), issueA)] [oldB, oldC] issueA).2 rfl (by decide)
  exact ⟨h.1, h.2 (by decide) oldB (by decide)⟩

/-! ## Claim C6 -/

/-- C6: with `--continue` and a persisted ExecuteJob record, the worker
performs zero submission calls, reconstructs the request handle from the
persisted request uuid and API endpoint, and skips the first poll delay;
otherwise it submits exactly one request, does not skip the first poll
delay, and persists one ExecuteJob immediately after submission with
`return_code` unset. -/
theorem execute_resume_behavior (env : WorkerEnv) :
    (∀ e : Execution, env.continueExecution = true → env.persistedExecution = some e →
      workerSetup env =
        { submissions := 0
          tfRequest := { api := e.request_api, uuid := e.request_uuid }
          skipInitialSleep := true
          saved := [] }) ∧
    (env.continueExecution = false ∨ env.persistedExecution = none →
      (workerSetup env).submissions = 1 ∧
      (workerSetup env).skipInitialSleep = false ∧
      (workerSetup env).tfRequest = env.submitResult ∧
      (workerSetup env).saved =
        [{ request_uuid := env.submitResult.uuid
           request_api := env.submitResult.api
           batch_id := env.batchId
           command := pyReplaceStr (String.intercalate (" ") env.commandArgs)
             env.rpToken ("***")
           artifacts_url := none
           return_code := none }]) ∧
    (∀ (d : Option TFDetails) (rest : List (Option TFDetails)),
      (pollLoop false (d :: rest)).1 = (pollLoop true (d :: rest)).1 + 1) := by
  refine ⟨?_, ?_, ?_⟩
  · intro e hc hp
    simp [workerSetup, hc, hp]
  · intro h
    have hsub : workerSetup env = workerSubmit env := by
      rcases h with h | h
      · simp [workerSetup, h]
      · cases hc : env.continueExecution
        · simp [workerSetup, hc]
        · simp [workerSetup, hc, h]
    rw [hsub]
    exact ⟨rfl, rfl, rfl, rfl⟩
  · intro d rest
    cases d with
    | none => simp [pollLoop, Nat.add_comm]
    | some det =>
      by_cases hterm : (det.state == ("complete") || det.state == ("error")) = true
      · simp [pollLoop, hterm]
      · simp [pollLoop, hterm, Nat.add_comm]

/-- A persisted execution for the C6 witness. -/
def persistedC6 : Execution :=
  { request_uuid := "uuid-1", request_api := "api-1", batch_id := "b-1", command := "cmd" }

/-- A worker environment in resume mode for the C6 witness. -/
def envC6 : WorkerEnv :=
  { continueExecution := true, persistedExecution := some persistedC6,
    submitResult := { api := "api-2", uuid := "uuid-2" },
    commandArgs := ["tf", "run"], rpToken := "tok", batchId := "b-2" }

theorem execute_resume_behavior_witness :
    workerSetup envC6 =
      { submissions := 0
        tfRequest := { api := "api-1", uuid := "uuid-1" }
        skipInitialSleep := true
        saved := [] } ∧
    (pollLoop false [some { state := "complete" }]).1 =
      (pollLoop true [some { state := "complete" }]).1 + 1 := by
  have h := execute_resume_behavior envC6
  exact ⟨h.1 persistedC6 rfl rfl, h.2.2 (some { state := "complete" }) []⟩

/-! ## Claim C10 -/

/-- C10 (amended): for every newly submitted execution, the command string
persisted in the ExecuteJob's Execution record is the command with every
occurrence of the ReportPortal token replaced by `'***'` (Python `replace`
semantics); provided the token is nonempty and does not itself contain the
character `'*'`, the token value does not occur in the persisted command. -/
theorem execute_token_scrub (env : WorkerEnv)
    (h1 : env.rpToken.data ≠ []) (h2 : '*' ∉ env.rpToken.data) :
    ∀ rec ∈ (workerSetup env).saved,
      rec.command =
        pyReplaceStr (String.intercalate (" ") env.commandArgs) env.rpToken ("***") ∧
      occursIn env.rpToken rec.command = false := by
  intro rec hrec
  have hsub : rec.command =
      pyReplaceStr (String.intercalate (" ") env.commandArgs) env.rpToken ("***") := by
    cases hc : env.continueExecution with
    | false =>
      simp only [workerSetup, hc, if_false, Bool.false_eq_true, workerSubmit] at hrec
      simp only [List.mem_singleton] at hrec
      rw [hrec]
    | true =>
      cases hp : env.persistedExecution with
      | none =>
        simp only [workerSetup, hc, if_true, hp, workerSubmit] at hrec
        simp only [List.mem_singleton] at hrec
        rw [hrec]
      | some e =>
        simp only [workerSetup, hc, if_true, hp] at hrec
        simp at hrec
  refine ⟨hsub, ?_⟩
  rw [hsub]
  exact occursIn_pyReplace_false (String.intercalate (" ") env.commandArgs) env.rpToken h1 h2

/-- A worker environment with a star-free token for the C10 witness. -/
def envC10 : WorkerEnv :=
  { continueExecution := false, persistedExecution := none,
    submitResult := { api := "api-3", uuid := "uuid-3" },
    commandArgs := ["run", "--token", "secret77", "suite"],
    rpToken := "secret77", batchId := "b-3" }

/-- The execution record persisted by the C10 witness environment. -/
def recC10 : Execution :=
  { request_uuid := "uuid-3", request_api := "api-3", batch_id := "b-3",
    command := pyReplaceStr (String.intercalate (" ")
      ["run", "--token", "secret77", "suite"]) ("secret77") ("***") }

theorem execute_token_scrub_witness :
    recC10.command =
      pyReplaceStr (String.intercalate (" ") envC10.commandArgs) envC10.rpToken ("***") ∧
    occursIn ("secret77") recC10.command = false :=
  execute_token_scrub envC10 (by decide) (by decide) recC10 (by decide)

/-- A worker environment whose ReportPortal token contains `'*'`, for the
C10 counterexample. -/
def envC10x : WorkerEnv :=
  { continueExecution := false, persistedExecution := none,
    submitResult := { api := "a", uuid := "u" },
    commandArgs := ["**aa"], rpToken := "*a", batchId := "b" }

/-- C10 counterexample: with token `"*a"` and command `"**aa"`, the
persisted command is `"****a"`, in which the token value occurs — so "the
token value never appears in the persisted execution record" fails on the
code for tokens containing `'*'`. -/
theorem token_scrub_counterexample :
    (workerSetup envC10x).saved.map (fun r => r.command) = ["****a"] ∧
    occursIn ("*a") ("****a") = true := by
  constructor
  · decide
  · decide

/-! ## Claim C7 -/

theorem buildRequestLines_aux :
    ∀ (reqs : List (String × List String)) (d0 : String) (l0 : List String),
      reqs.foldl
        (fun acc p =>
          if p.2.length != 0 then
            (acc.1 ++ (("  ") ++ p.1 ++ (": COMPLETED<br>")), acc.2 ++ p.2)
          else (acc.1 ++ (("  ") ++ p.1 ++ (": MISSING<br>")), acc.2))
        (d0, l0) =
      (d0 ++ linesOf reqs, l0 ++ launchesOf reqs) := by
  intro reqs
  induction reqs with
  | nil =>
    intro d0 l0
    simp [linesOf, launchesOf, String.append_empty]
  | cons p rest ih =>
    intro d0 l0
    by_cases hp : (p.2.length != 0) = true
    · simp only [List.foldl_cons, hp, if_true]
      rw [ih]
      simp [linesOf, launchesOf, requestLine, hp, String.append_assoc, List.append_assoc]
    · have hp2 : (p.2.length != 0) = false := by
        revert hp; cases p.2.length != 0 <;> simp
      simp only [List.foldl_cons, hp2, if_false, Bool.false_eq_true]
      rw [ih]
      simp [linesOf, launchesOf, requestLine, hp2, String.append_assoc]

theorem buildRequestLines_eq (reqs : List (String × List String)) :
    buildRequestLines reqs = (linesOf reqs, launchesOf reqs) := by
  unfold buildRequestLines
  rw [buildRequestLines_aux reqs ("") []]
  simp [String.empty_append]

theorem launchesOf_eq_nil (reqs : List (String × List String)) :
    launchesOf reqs = [] ↔ ∀ p ∈ reqs, p.2 = [] := by
  induction reqs with
  | nil => simp [launchesOf]
  | cons p rest ih =>
    by_cases hp : p.2 = []
    · simp [launchesOf, hp, ih]
    · have hlen : (p.2.length != 0) = true := by
        cases hq : p.2 with
        | nil => exact absurd hq hp
        | cons x xs => simp
      simp [launchesOf, hlen, hp, List.append_eq_nil]

/-- C7: the report description marks a request COMPLETED exactly when a
non-empty result-collection list was found for its batch id and MISSING
otherwise; when zero non-empty collections exist across the key the
no-launch error is logged and no comment is posted; when more than one
collection was collected they are merged into a single named collection
before commenting; a single collection is reported unmerged. -/
theorem report_aggregation (merge : List String → String → String → Option String)
    (getUrl : String → String) (ok : String → Bool) (rec : ReportRecord) :
    buildRequestLines rec.requests = (linesOf rec.requests, launchesOf rec.requests) ∧
    (∀ p : String × List String,
      requestLine p =
        if p.2.length != 0 then ("  ") ++ p.1 ++ (": COMPLETED<br>")
        else ("  ") ++ p.1 ++ (": MISSING<br>")) ∧
    (launchesOf rec.requests = [] ↔ ∀ p ∈ rec.requests, p.2 = []) ∧
    (launchesOf rec.requests = [] →
      (processRecord merge getUrl ok rec).map
        (fun out => (out.noLaunchError, out.comment, out.mergeAttempted, out.finalLaunches)) =
      Except.ok (true, none, false, [])) ∧
    (∀ out, processRecord merge getUrl ok rec = Except.ok out →
      (launchesOf rec.requests).length > 1 →
      out.mergeAttempted = true ∧
      ∀ m, merge (launchesOf rec.requests)
          (match rec.launchName with
           | some n => n
           | none => "unspecified_newa_launch_name")
          out.description = some m →
        out.finalLaunches = [m]) ∧
    (∀ out, processRecord merge getUrl ok rec = Except.ok out →
      (launchesOf rec.requests).length = 1 →
      out.mergeAttempted = false ∧ out.finalLaunches = launchesOf rec.requests) := by
  refine ⟨buildRequestLines_eq _, fun p => rfl, launchesOf_eq_nil _, ?_, ?_, ?_⟩
  · intro hL
    simp only [processRecord, buildRequestLines_eq, hL]
    rfl
  · intro out hout hgt
    simp only [processRecord, buildRequestLines_eq] at hout
    have h0 : (((launchesOf rec.requests).length == 0) = true) → False := by
      intro hc
      have hh : (launchesOf rec.requests).length = 0 := by simpa using hc
      omega
    rw [if_neg h0, if_pos hgt] at hout
    cases hm : merge (launchesOf rec.requests)
        (match rec.launchName with
         | some n => n
         | none => "unspecified_newa_launch_name")
        ((match rec.launchDescription with
          | some d => d ++ ("<br><br>")
          | none => "") ++ recordHeader rec.jiraId rec.requests.length ++
          linesOf rec.requests) with
    | none =>
      rw [hm] at hout
      split at hout
      · split at hout
        · simp only [Except.ok.injEq] at hout
          subst hout
          refine ⟨rfl, ?_⟩
          intro m hmm
          rw [hmm] at hm
          cases hm
        · cases hout
      · simp only [Except.ok.injEq] at hout
        subst hout
        refine ⟨rfl, ?_⟩
        intro m hmm
        rw [hmm] at hm
        cases hm
    | some m0 =>
      rw [hm] at hout
      split at hout
      · split at hout
        · simp only [Except.ok.injEq] at hout
          subst hout
          refine ⟨rfl, ?_⟩
          intro m hmm
          rw [hmm] at hm
          cases hm
          rfl
        · cases hout
      · simp only [Except.ok.injEq] at hout
        subst hout
        refine ⟨rfl, ?_⟩
        intro m hmm
        rw [hmm] at hm
        cases hm
        rfl
  · intro out hout hlen
    simp only [processRecord, buildRequestLines_eq] at hout
    have h0 : (((launchesOf rec.requests).length == 0) = true) → False := by
      intro hc
      have hh : (launchesOf rec.requests).length = 0 := by simpa using hc
      omega
    have hgt : ¬ (launchesOf rec.requests).length > 1 := by omega
    rw [if_neg h0, if_neg hgt] at hout
    split at hout
    · split at hout
      · simp only [Except.ok.injEq] at hout
        subst hout
        exact ⟨rfl, rfl⟩
      · cases hout
    · simp only [Except.ok.injEq] at hout
      subst hout
      exact ⟨rfl, rfl⟩

/-- The spec's aggregation scenario: three requests under one composite key,
two completed and one missing. -/
def recC7 : ReportRecord :=
  { jiraId := "J-7", launchName := some ("ln"), launchDescription := some ("ld"),
    group := none,
    requests := [(("r1"), ["L1"]), (("r2"), ["L2"]), (("r3"), [])] }

/-- A merge client that always succeeds with launch "M". -/
def mergeC7 : List String → String → String → Option String := fun _ _ _ => some ("M")

/-- A URL client that returns the launch id itself. -/
def urlC7 : String → String := fun s => s

/-- A comment client that always succeeds. -/
def okC7 : String → Bool := fun _ => true

/-- The outcome computed for the C7 witness scenario. -/
def outC7 : RecordOutcome :=
  match processRecord mergeC7 urlC7 okC7 recC7 with
  | Except.ok o => o
  | Except.error _ =>
    { description := "", finalLaunches := [], mergeAttempted := false,
      noLaunchError := false, mergeError := false, comment := none }

theorem report_aggregation_witness :
    outC7.mergeAttempted = true ∧ outC7.finalLaunches = ["M"] ∧
    (launchesOf recC7.requests).length = 2 := by
  have h := (report_aggregation mergeC7 urlC7 okC7 recC7).2.2.2.2.1 outC7 (by rfl)
    (by decide)
  exact ⟨h.1, h.2 ("M") rfl, by decide⟩

/-! ## Claim C8 -/

/-- C8: an execution record whose tracking-issue id equals the sentinel
"no issue" value never triggers a tracker comment call in the reporter; and
in the no-config branch of `cmd_jira` (with the mandatory job recipe and the
tracker not knowing an issue named like the sentinel) the sentinel id is
assigned exactly when no explicit `--issue` is given. -/
theorem sentinel_no_issue (merge : List String → String → String → Option String)
    (getUrl : String → String) (ok : String → Bool) (rec : ReportRecord)
    (ex : String → Bool) (r : String) (io : Option String) :
    (rec.jiraId = JIRA_NONE_ID →
      (processRecord merge getUrl ok rec).map (fun out => out.comment) = Except.ok none) ∧
    (∀ issue : Issue, ex JIRA_NONE_ID = false →
      jiraNoConfig ex (some r) io = Except.ok issue →
      (issue.id = JIRA_NONE_ID ↔ io = none)) := by
  constructor
  · intro hid
    simp only [processRecord]
    split
    · rfl
    · rw [if_neg (by simp [hid])]
      rfl
  · intro issue hex hok
    cases io with
    | none =>
      simp only [jiraNoConfig, Except.ok.injEq] at hok
      subst hok
      simp
    | some i =>
      simp only [jiraNoConfig] at hok
      by_cases hexi : ex i = true
      · rw [if_pos hexi] at hok
        simp only [Except.ok.injEq] at hok
        subst hok
        constructor
        · intro hc
          exfalso
          have hc2 : i = JIRA_NONE_ID := hc
          rw [hc2] at hexi
          rw [hexi] at hex
          cases hex
        · intro hc
          cases hc
      · rw [if_neg hexi] at hok
        cases hok

/-- A report record with the sentinel issue id for the C8 witness. -/
def recC8 : ReportRecord :=
  { jiraId := JIRA_NONE_ID, launchName := some ("ln"), launchDescription := none,
    group := none, requests := [(("r1"), ["L1"])] }

/-- A tracker-verification stub for the C8 witness: only "PROJ-1" exists. -/
def exC8 : String → Bool := fun s => s == ("PROJ-1")

theorem sentinel_no_issue_witness :
    (processRecord mergeC7 urlC7 okC7 recC8).map (fun out => out.comment) = Except.ok none ∧
    (({ id := JIRA_NONE_ID, group := none, closed := false } : Issue).id = JIRA_NONE_ID ↔
      (none : Option String) = none) := by
  have h := sentinel_no_issue mergeC7 urlC7 okC7 recC8 exC8 ("recipe.yaml") none
  exact ⟨h.1 rfl, h.2 { id := JIRA_NONE_ID, group := none, closed := false } rfl rfl⟩

/-! ## Claim C9 -/

/-- C9 (amended): a failure of the tracker comment call for one composite
key raises an error that aborts the report loop, so the remaining composite
keys are not processed; a key whose issue id is not the sentinel, whose
launches are non-empty and whose comment call fails produces exactly that
error. -/
theorem report_comment_failure_aborts
    (merge : List String → String → String → Option String)
    (getUrl : String → String) (ok : String → Bool)
    (r : ReportRecord) (rs : List ReportRecord) (e : String) :
    (processRecord merge getUrl ok r = Except.error e →
      reportLoop merge getUrl ok (r :: rs) = ([], some e)) ∧
    (∀ rec : ReportRecord, rec.jiraId ≠ JIRA_NONE_ID → ok rec.jiraId = false →
      launchesOf rec.requests ≠ [] →
      processRecord merge getUrl ok rec =
        Except.error (("Unable to add a comment to issue ") ++ rec.jiraId ++ ("!"))) := by
  constructor
  · intro h
    simp [reportLoop, h]
  · intro rec hid hok hL
    simp only [processRecord, buildRequestLines_eq]
    have h0 : (((launchesOf rec.requests).length == 0) = true) → False := by
      intro hc
      have hh : (launchesOf rec.requests).length = 0 := by simpa using hc
      exact hL (List.length_eq_zero.mp hh)
    rw [if_neg h0]
    rw [if_pos (by simp [bne_iff_ne, hid])]
    rw [if_neg (by simp [hok])]

/-- First report record of the C9 counterexample (its comment call fails). -/
def recC9a : ReportRecord :=
  { jiraId := "J-1", launchName := some ("ln"), launchDescription := none,
    group := none, requests := [(("r1"), ["L1"])] }

/-- Second report record of the C9 counterexample (would comment fine). -/
def recC9b : ReportRecord :=
  { jiraId := "J-2", launchName := some ("ln"), launchDescription := none,
    group := none, requests := [(("r2"), ["L2"])] }

/-- A comment client that fails exactly for issue "J-1". -/
def okC9 : String → Bool := fun s => !(s == ("J-1"))

theorem report_comment_failure_aborts_witness :
    reportLoop mergeC7 urlC7 okC9 [recC9a, recC9b] =
      ([], some (("Unable to add a comment to issue ") ++ ("J-1") ++ ("!"))) := by
  have h := report_comment_failure_aborts mergeC7 urlC7 okC9 recC9a [recC9b]
    (("Unable to add a comment to issue ") ++ ("J-1") ++ ("!"))
  exact h.1 (h.2 recC9a (by decide) (by decide) (by decide))

/-- C9 counterexample: when commenting the first composite key fails, the
report loop produces no outcome at all for the second key — which, on its
own, would have been commented — so the failure is not isolated to its key
and does abort processing of the remaining keys. -/
theorem report_comment_failure_counterexample :
    (reportLoop mergeC7 urlC7 okC9 [recC9a, recC9b]).1 = [] ∧
    (processRecord mergeC7 urlC7 okC9 recC9b).map (fun o => o.comment.isSome) =
      Except.ok true := by
  constructor
  · decide
  · rfl

end Newa
